import Mathlib

/-!
Shallow embedding of the turtle-population simulation in
`src/streamlit_app.py`, together with proofs about it.

Modelling conventions: Python floats are modelled as real numbers with
exact arithmetic, Python ints as `ℤ`, and Python's `int(x)` (truncation
toward zero) as `pyint`.  Python's floor division `//` is `Int.fdiv`,
and a negative list index `xs[-k]` (with the bound `len(xs) >= k`
checked by the code) is `xs.getD (xs.length - k) 0`.
-/

/-- Module constant `initial_population = 500`. -/
def initial_population : ℤ := 500

/-- Module constant `carrying_capacity = 2000`. -/
def carrying_capacity : ℤ := 2000

/-- Module constant `generations = 100` (unused by the simulation loop). -/
def generations : ℤ := 100

/-- Module constant `optimal_temperature = 29` (unused by the simulation loop). -/
def optimal_temperature : ℝ := 29

/-- Module constant `maturity_age = 4`. -/
def maturity_age : ℕ := 4

/-- Module constant `hatchling_survival_rate = 0.8`. -/
def hatchling_survival_rate : ℝ := 0.8

/-- Module constant `adult_mortality_rate = 0.1`. -/
def adult_mortality_rate : ℝ := 0.1

/-- Module constant `female_mortality_rate = 0.05`. -/
def female_mortality_rate : ℝ := 0.05

/-- Module constant `male_mortality_rate_warm = 0.2`. -/
def male_mortality_rate_warm : ℝ := 0.2

/-- Module constant `max_females_per_male = 10` (unused by the simulation loop). -/
def max_females_per_male : ℤ := 10

/-- Module constant `average_eggs_per_female = 100`. -/
def average_eggs_per_female : ℤ := 100

/-- Module constant `initial_males = initial_population // 2`. -/
def initial_males : ℤ := initial_population / 2

/-- Module constant `initial_females = initial_population // 2`. -/
def initial_females : ℤ := initial_population / 2

/-- Default `pivotal_temp` argument of `get_female_ratio` (29.0). -/
def pivotal_temperature : ℝ := 29.0

/-- Default `transition` argument of `get_female_ratio` (0.5). -/
def transition_steepness : ℝ := 0.5

/-- Python's `int(x)` applied to a float: truncation toward zero. -/
noncomputable def pyint (x : ℝ) : ℤ := if 0 ≤ x then ⌊x⌋ else ⌈x⌉

/-- The function `get_female_ratio` (source lines 31-43), called by the
simulation only with the default `pivotal_temp = 29.0` and
`transition = 0.5`. -/
noncomputable def get_female_ratio (temp : ℝ) : ℝ :=
  1 / (1 + Real.exp (-transition_steepness * (temp - pivotal_temperature)))

/-- The unused utility `logistic_growth` (source lines 46-48). -/
noncomputable def logistic_growth (population : ℝ) : ℝ :=
  population * (1 - population / (carrying_capacity : ℝ))

/-- Mutable loop state of `simulate_population`: the current counts
together with the three recorded sequences. -/
structure SimAcc where
  males : ℤ
  females : ℤ
  male_counts : List ℤ
  female_counts : List ℤ
  total_population : List ℤ

/-- Source line 61: `female_counts[-maturity_age] if len(female_counts) >= maturity_age else females`. -/
def mature_lookup (female_counts : List ℤ) (females : ℤ) : ℤ :=
  if maturity_age ≤ female_counts.length then
    female_counts.getD (female_counts.length - maturity_age) 0
  else females

/-- Source lines 64-72: reproducing pairs, egg production, hatchling
survival, and the temperature-based sex split.  Returns
`(new_males, new_females)`. -/
noncomputable def offspring (mature_females males : ℤ) (female_ratio : ℝ) : ℤ × ℤ :=
  let reproducing_pairs := min mature_females males
  let potential_offspring := reproducing_pairs * average_eggs_per_female
  let surviving_offspring := pyint ((potential_offspring : ℝ) * hatchling_survival_rate)
  (pyint ((surviving_offspring : ℝ) * (1 - female_ratio)),
   pyint ((surviving_offspring : ℝ) * female_ratio))

/-- Source lines 74-78: the collapse guard.  Returns the possibly
adjusted `(new_males, new_females, females)`. -/
noncomputable def collapse_guard (males new_males new_females females : ℤ) : ℤ × ℤ × ℤ :=
  if males ≤ 5 then
    (max 0 (Int.fdiv new_males 2), max 0 (Int.fdiv new_females 2),
     pyint ((females : ℝ) * 0.85))
  else (new_males, new_females, females)

/-- Source lines 80-85: scenario-dependent mortality.  Returns the
post-mortality `(males, females)`. -/
noncomputable def mortality (cooling : Bool) (males females : ℤ) : ℤ × ℤ :=
  let males1 := pyint ((males : ℝ) *
    (1 - (if cooling then adult_mortality_rate else male_mortality_rate_warm)))
  let females1 := pyint ((females : ℝ) * (1 - adult_mortality_rate))
  let females2 := if cooling then pyint ((females1 : ℝ) * (1 - female_mortality_rate))
    else females1
  (males1, females2)

/-- Source lines 95-100: the carrying-capacity constraint. -/
noncomputable def capacity_constraint (males females : ℤ) : ℤ × ℤ :=
  let total := males + females
  if carrying_capacity < total then
    (pyint ((males : ℝ) * ((carrying_capacity : ℝ) / (total : ℝ))),
     pyint ((females : ℝ) * ((carrying_capacity : ℝ) / (total : ℝ))))
  else (males, females)

/-- One iteration of the `for temp in temp_range` body (source lines
58-106), from the sex-ratio computation to recording the new state. -/
noncomputable def sim_step (cooling : Bool) (temp : ℝ) (s : SimAcc) : SimAcc :=
  let female_ratio := get_female_ratio temp
  let mature_females := mature_lookup s.female_counts s.females
  let o := offspring mature_females s.males female_ratio
  let g := collapse_guard s.males o.1 o.2 s.females
  let m := mortality cooling s.males g.2.2
  let males2 := m.1 + g.1
  let females2 := m.2 + g.2.1
  let females3 := if males2 = 0 then 0 else females2
  let c := capacity_constraint males2 females3
  { males := c.1, females := c.2,
    male_counts := s.male_counts ++ [c.1],
    female_counts := s.female_counts ++ [c.2],
    total_population := s.total_population ++ [c.1 + c.2] }

/-- The `for temp in temp_range` loop of `simulate_population` (source
lines 54-106), including the early `break` when either sex has fewer
than one individual. -/
noncomputable def sim_loop (cooling : Bool) : List ℝ → SimAcc → SimAcc
  | [], s => s
  | temp :: rest, s =>
    if s.males < 1 ∨ s.females < 1 then s
    else sim_loop cooling rest (sim_step cooling temp s)

/-- The loop state at entry of `simulate_population` (source lines 51-52). -/
def init_acc : SimAcc :=
  { males := initial_males, females := initial_females,
    male_counts := [initial_males], female_counts := [initial_females],
    total_population := [initial_males + initial_females] }

/-- The function `simulate_population` (source lines 50-108): runs the
loop and returns `temp_range[:len(male_counts)]` together with the three
recorded sequences. -/
noncomputable def simulate_population (temp_range : List ℝ) (cooling : Bool) :
    List ℝ × List ℤ × List ℤ × List ℤ :=
  let s := sim_loop cooling temp_range init_acc
  (temp_range.take s.male_counts.length,
   s.male_counts, s.female_counts, s.total_population)

/-- Model of `np.arange(start, stop, step)` with float arguments: the
list `start + i * step` for `0 ≤ i < ceil((stop - start) / step)` (empty
when that count is not positive). -/
noncomputable def arange (start stop step : ℝ) : List ℝ :=
  (List.range (⌈(stop - start) / step⌉.toNat)).map (fun i : ℕ => start + (i : ℝ) * step)

/-- Source line 114: `warming_temps = np.arange(29, 35, 0.1)`. -/
noncomputable def warming_temps : List ℝ := arange 29 35 0.1

/-- Source line 115: `cooling_temps = np.arange(29, 24, -0.1)`. -/
noncomputable def cooling_temps : List ℝ := arange 29 24 (-0.1)

/-- Reconstruction of the loop state just before the entry at position
`n` is recorded, from the three recorded sequences of a finished run. -/
def stateAt (mc fc tc : List ℤ) (n : ℕ) : SimAcc :=
  { males := mc.getD (n - 1) 0, females := fc.getD (n - 1) 0,
    male_counts := mc.take n, female_counts := fc.take n,
    total_population := tc.take n }

/-! ### Basic facts about `pyint` -/

lemma pyint_of_nonneg {x : ℝ} (h : 0 ≤ x) : pyint x = ⌊x⌋ := if_pos h

lemma pyint_nonneg {x : ℝ} (h : 0 ≤ x) : 0 ≤ pyint x := by
  rw [pyint_of_nonneg h]; exact Int.floor_nonneg.mpr h

lemma pyint_le {x : ℝ} (h : 0 ≤ x) : (pyint x : ℝ) ≤ x := by
  rw [pyint_of_nonneg h]; exact Int.floor_le x

lemma pyint_eval {x : ℝ} {n : ℤ} (h0 : 0 ≤ n) (h1 : (n : ℝ) ≤ x) (h2 : x < (n : ℝ) + 1) :
    pyint x = n := by
  have hx : 0 ≤ x := le_trans (by exact_mod_cast h0) h1
  rw [pyint_of_nonneg hx]
  exact Int.floor_eq_iff.mpr ⟨h1, h2⟩

lemma pyint_intCast (k : ℤ) : pyint (k : ℝ) = k := by
  unfold pyint
  split
  · exact Int.floor_intCast k
  · exact Int.ceil_intCast k

lemma one_le_pyint {x : ℝ} (h : 1 ≤ x) : 1 ≤ pyint x := by
  rw [pyint_of_nonneg (le_trans zero_le_one h)]
  exact Int.le_floor.mpr (by exact_mod_cast h)

lemma pyint_le_of_le {x y : ℝ} (h0 : 0 ≤ x) (hxy : x ≤ y) : pyint x ≤ pyint y := by
  rw [pyint_of_nonneg h0, pyint_of_nonneg (h0.trans hxy)]
  exact Int.floor_le_floor hxy

/-! ### Basic facts about `get_female_ratio` -/

lemma one_add_exp_pos (x : ℝ) : 0 < 1 + Real.exp x := by positivity

lemma get_female_ratio_pos (t : ℝ) : 0 < get_female_ratio t := by
  unfold get_female_ratio
  positivity

lemma get_female_ratio_lt_one (t : ℝ) : get_female_ratio t < 1 := by
  unfold get_female_ratio
  rw [div_lt_one (one_add_exp_pos _)]
  have := Real.exp_pos (-transition_steepness * (t - pivotal_temperature))
  linarith

lemma get_female_ratio_pivot : get_female_ratio 29 = 1 / 2 := by
  unfold get_female_ratio
  have h : -transition_steepness * ((29 : ℝ) - pivotal_temperature) = 0 := by
    unfold transition_steepness pivotal_temperature
    norm_num
  rw [h, Real.exp_zero]
  norm_num

lemma get_female_ratio_strictMono : StrictMono get_female_ratio := by
  intro a b hab
  unfold get_female_ratio
  have hlt : Real.exp (-transition_steepness * (b - pivotal_temperature)) <
      Real.exp (-transition_steepness * (a - pivotal_temperature)) := by
    rw [Real.exp_lt_exp]
    unfold transition_steepness
    nlinarith
  exact div_lt_div_of_pos_left one_pos (one_add_exp_pos _) (by linarith)

/-! ### Lower bounds on the exponential, for concrete cold-temperature runs -/

lemma two_pow_le_exp (n : ℕ) : (2 : ℝ) ^ n ≤ Real.exp n := by
  have h1 : ((2 : ℝ)) ^ n ≤ (Real.exp 1) ^ n := by
    apply pow_le_pow_left (by norm_num)
    linarith [Real.exp_one_gt_d9]
  have h2 : Real.exp (n : ℝ) = Real.exp 1 ^ n := by
    rw [← Real.exp_nat_mul]
    norm_num
  rw [h2]
  exact h1

lemma exp_645_gt : (20000 : ℝ) < Real.exp 64.5 := by
  have h15 : (32768 : ℝ) ≤ Real.exp 15 := by
    have h := two_pow_le_exp 15
    norm_num at h
    exact h
  have hle : Real.exp 15 ≤ Real.exp 64.5 := Real.exp_le_exp.mpr (by norm_num)
  linarith

lemma get_female_ratio_neg100 : get_female_ratio (-100) = 1 / (1 + Real.exp 64.5) := by
  unfold get_female_ratio
  have h : -transition_steepness * ((-100 : ℝ) - pivotal_temperature) = 64.5 := by
    unfold transition_steepness pivotal_temperature
    norm_num
  rw [h]

lemma r100_small : get_female_ratio (-100) < 1 / 20000 := by
  rw [get_female_ratio_neg100]
  have hE := exp_645_gt
  exact div_lt_div_of_pos_left one_pos (by norm_num) (by linarith)

lemma pyint_small {S : ℤ} {r : ℝ} (hS0 : 0 ≤ S) (hS : S ≤ 20000) (hr0 : 0 < r)
    (hr : r < 1 / 20000) : pyint ((S : ℝ) * r) = 0 := by
  have hS' : (S : ℝ) ≤ 20000 := by exact_mod_cast hS
  have hS0' : (0 : ℝ) ≤ (S : ℝ) := by exact_mod_cast hS0
  have h1 : 0 ≤ (S : ℝ) * r := mul_nonneg hS0' hr0.le
  have h2 : (S : ℝ) * r < 1 := by nlinarith
  rw [pyint_of_nonneg h1, Int.floor_eq_zero_iff]
  exact ⟨h1, h2⟩

lemma pyint_near {S : ℤ} {r : ℝ} (hS1 : 1 ≤ S) (hS : S ≤ 20000) (hr0 : 0 < r)
    (hr : r < 1 / 20000) : pyint ((S : ℝ) * (1 - r)) = S - 1 := by
  have hS' : (S : ℝ) ≤ 20000 := by exact_mod_cast hS
  have hS1' : (1 : ℝ) ≤ (S : ℝ) := by exact_mod_cast hS1
  apply pyint_eval (by omega)
  · push_cast
    nlinarith
  · push_cast
    nlinarith

/-! ### List helpers -/

lemma getD_concat_length {α : Type*} (l : List α) (x d : α) :
    (l ++ [x]).getD l.length d = x := by
  simp [List.getD_eq_getElem?_getD]

lemma getD_of_length_le {α : Type*} (l : List α) (d : α) {i : ℕ} (h : l.length ≤ i) :
    l.getD i d = d := by
  simp [List.getD_eq_getElem?_getD, List.getElem?_eq_none h]

lemma getD_concat_lt {α : Type*} {l : List α} (x d : α) {i : ℕ} (h : i < l.length) :
    (l ++ [x]).getD i d = l.getD i d :=
  List.getD_append _ _ _ _ h

lemma prefix_getD {α : Type*} {l m : List α} (d : α) (hp : l <+: m) {i : ℕ}
    (h : i < l.length) : m.getD i d = l.getD i d := by
  obtain ⟨t, rfl⟩ := hp
  exact List.getD_append _ _ _ _ h

lemma take_prefix_length {α : Type*} {l m : List α} (hp : l <+: m) :
    m.take l.length = l := by
  obtain ⟨t, rfl⟩ := hp
  simp [List.take_append_eq_append_take]

lemma getD_last {α : Type*} {l : List α} {x : α} (d : α) (hl : l.getLast? = some x) :
    l.getD (l.length - 1) d = x := by
  rw [List.getLast?_eq_getElem?] at hl
  simp [List.getD_eq_getElem?_getD, hl]

/-! ### Well-formedness and invariants of the loop state -/

/-- The bookkeeping invariant of the loop state: the three recorded
sequences have equal positive length and end in the current counts. -/
def SimAcc.WF (s : SimAcc) : Prop :=
  s.female_counts.length = s.male_counts.length ∧
  s.total_population.length = s.male_counts.length ∧
  s.male_counts ≠ [] ∧
  s.male_counts.getLast? = some s.males ∧
  s.female_counts.getLast? = some s.females

/-- The recorded sequences are entrywise nonnegative, capacity-bounded,
never record a male-extinct state with surviving females, and the total
sequence is the entrywise sum. -/
def GoodLists (mc fc tc : List ℤ) : Prop :=
  (∀ i, 0 ≤ mc.getD i 0) ∧ (∀ i, 0 ≤ fc.getD i 0) ∧
  (∀ i, mc.getD i 0 + fc.getD i 0 ≤ carrying_capacity) ∧
  (∀ i, mc.getD i 0 = 0 → fc.getD i 0 = 0) ∧
  (∀ i, tc.getD i 0 = mc.getD i 0 + fc.getD i 0)

/-- Every recorded entry except possibly the last has at least one
individual of each sex. -/
def AliveButLast (mc fc : List ℤ) : Prop :=
  ∀ i, i + 1 < mc.length → 1 ≤ mc.getD i 0 ∧ 1 ≤ fc.getD i 0

lemma init_acc_wf : init_acc.WF := by
  refine ⟨rfl, rfl, by simp [init_acc], ?_, ?_⟩ <;> simp [init_acc]

lemma wf_last_male {s : SimAcc} (h : s.WF) :
    s.male_counts.getD (s.male_counts.length - 1) 0 = s.males :=
  getD_last 0 h.2.2.2.1

lemma wf_last_female {s : SimAcc} (h : s.WF) :
    s.female_counts.getD (s.female_counts.length - 1) 0 = s.females :=
  getD_last 0 h.2.2.2.2

/-! ### Definitional characterizations of the stages -/

lemma offspring_def (mf m : ℤ) (r : ℝ) :
    offspring mf m r =
      (pyint ((pyint (((min mf m * average_eggs_per_female : ℤ) : ℝ) *
          hatchling_survival_rate) : ℝ) * (1 - r)),
       pyint ((pyint (((min mf m * average_eggs_per_female : ℤ) : ℝ) *
          hatchling_survival_rate) : ℝ) * r)) := rfl

lemma collapse_guard_def (m nm nf f : ℤ) :
    collapse_guard m nm nf f =
      if m ≤ 5 then
        (max 0 (Int.fdiv nm 2), max 0 (Int.fdiv nf 2), pyint ((f : ℝ) * 0.85))
      else (nm, nf, f) := rfl

lemma mortality_def (c : Bool) (m f : ℤ) :
    mortality c m f =
      (pyint ((m : ℝ) * (1 - (if c then adult_mortality_rate else male_mortality_rate_warm))),
       if c then
         pyint ((pyint ((f : ℝ) * (1 - adult_mortality_rate)) : ℝ) * (1 - female_mortality_rate))
       else pyint ((f : ℝ) * (1 - adult_mortality_rate))) := rfl

lemma capacity_def (m f : ℤ) :
    capacity_constraint m f =
      if carrying_capacity < m + f then
        (pyint ((m : ℝ) * ((carrying_capacity : ℝ) / ((m + f : ℤ) : ℝ))),
         pyint ((f : ℝ) * ((carrying_capacity : ℝ) / ((m + f : ℤ) : ℝ))))
      else (m, f) := rfl

lemma sim_step_eval (c : Bool) (t : ℝ) (s : SimAcc) {nm nf gm gf gfem mm mf2 : ℤ}
    (ho : offspring (mature_lookup s.female_counts s.females) s.males
        (get_female_ratio t) = (nm, nf))
    (hg : collapse_guard s.males nm nf s.females = (gm, gf, gfem))
    (hmo : mortality c s.males gfem = (mm, mf2)) :
    sim_step c t s =
      { males := (capacity_constraint (mm + gm) (if mm + gm = 0 then 0 else mf2 + gf)).1,
        females := (capacity_constraint (mm + gm) (if mm + gm = 0 then 0 else mf2 + gf)).2,
        male_counts := s.male_counts ++
          [(capacity_constraint (mm + gm) (if mm + gm = 0 then 0 else mf2 + gf)).1],
        female_counts := s.female_counts ++
          [(capacity_constraint (mm + gm) (if mm + gm = 0 then 0 else mf2 + gf)).2],
        total_population := s.total_population ++
          [(capacity_constraint (mm + gm) (if mm + gm = 0 then 0 else mf2 + gf)).1 +
           (capacity_constraint (mm + gm) (if mm + gm = 0 then 0 else mf2 + gf)).2] } := by
  simp only [sim_step, ho, hg, hmo]

lemma sim_step_male_counts (c : Bool) (t : ℝ) (s : SimAcc) :
    (sim_step c t s).male_counts = s.male_counts ++ [(sim_step c t s).males] := rfl

lemma sim_step_female_counts (c : Bool) (t : ℝ) (s : SimAcc) :
    (sim_step c t s).female_counts = s.female_counts ++ [(sim_step c t s).females] := rfl

lemma sim_step_total_population (c : Bool) (t : ℝ) (s : SimAcc) :
    (sim_step c t s).total_population = s.total_population ++
      [(sim_step c t s).males + (sim_step c t s).females] := rfl

lemma sim_loop_nil (c : Bool) (s : SimAcc) : sim_loop c [] s = s := rfl

lemma sim_loop_cons (c : Bool) (t : ℝ) (ts : List ℝ) (s : SimAcc) :
    sim_loop c (t :: ts) s =
      if s.males < 1 ∨ s.females < 1 then s
      else sim_loop c ts (sim_step c t s) := rfl

/-! ### Per-stage bounds -/

lemma mature_lookup_nonneg {fc : List ℤ} {f : ℤ}
    (hfc : ∀ i, 0 ≤ fc.getD i 0) (hf : 0 ≤ f) : 0 ≤ mature_lookup fc f := by
  unfold mature_lookup
  split
  · exact hfc _
  · exact hf

lemma offspring_bounds {mf m : ℤ} (r : ℝ) (hmf : 0 ≤ mf) (hm : 0 ≤ m)
    (hr0 : 0 ≤ r) (hr1 : r ≤ 1) :
    0 ≤ (offspring mf m r).1 ∧ 0 ≤ (offspring mf m r).2 ∧
      (offspring mf m r).2 ≤ 80 * m := by
  rw [offspring_def]
  have hp0 : 0 ≤ min mf m := le_min hmf hm
  have hpm : min mf m ≤ m := min_le_right _ _
  have hp0R : (0 : ℝ) ≤ ((min mf m : ℤ) : ℝ) := by exact_mod_cast hp0
  have hz : (0 : ℤ) ≤ min mf m * average_eggs_per_female :=
    mul_nonneg hp0 (by norm_num [average_eggs_per_female])
  have harg : (0 : ℝ) ≤ ((min mf m * average_eggs_per_female : ℤ) : ℝ) *
      hatchling_survival_rate := by
    apply mul_nonneg
    · exact_mod_cast hz
    · norm_num [hatchling_survival_rate]
  have hS0 : 0 ≤ pyint (((min mf m * average_eggs_per_female : ℤ) : ℝ) *
      hatchling_survival_rate) := pyint_nonneg harg
  set S := pyint (((min mf m * average_eggs_per_female : ℤ) : ℝ) *
      hatchling_survival_rate) with hSdef
  have hS0R : (0 : ℝ) ≤ (S : ℝ) := by exact_mod_cast hS0
  have hSle : (S : ℝ) ≤ ((min mf m * average_eggs_per_female : ℤ) : ℝ) *
      hatchling_survival_rate := pyint_le harg
  have hS80 : S ≤ 80 * min mf m := by
    have heq : ((min mf m * average_eggs_per_female : ℤ) : ℝ) * hatchling_survival_rate
        = ((80 * min mf m : ℤ) : ℝ) := by
      unfold average_eggs_per_female hatchling_survival_rate
      push_cast
      ring
    rw [heq] at hSle
    exact_mod_cast hSle
  refine ⟨pyint_nonneg (by nlinarith), pyint_nonneg (by nlinarith), ?_⟩
  have h2 : (pyint ((S : ℝ) * r) : ℝ) ≤ (S : ℝ) * r := pyint_le (by nlinarith)
  have h3 : pyint ((S : ℝ) * r) ≤ S := by
    have h4 : (pyint ((S : ℝ) * r) : ℝ) ≤ (S : ℝ) := by nlinarith
    exact_mod_cast h4
  linarith

lemma collapse_guard_bounds {m nm nf f : ℤ} (hnm : 0 ≤ nm) (hnf : 0 ≤ nf) (hf : 0 ≤ f) :
    0 ≤ (collapse_guard m nm nf f).1 ∧ 0 ≤ (collapse_guard m nm nf f).2.1 ∧
    0 ≤ (collapse_guard m nm nf f).2.2 ∧ (collapse_guard m nm nf f).2.1 ≤ nf := by
  rw [collapse_guard_def]
  split
  · refine ⟨le_max_left _ _, le_max_left _ _, ?_, ?_⟩
    · have hfR : (0 : ℝ) ≤ (f : ℝ) := by exact_mod_cast hf
      exact pyint_nonneg (by nlinarith)
    · refine max_le hnf ?_
      rw [Int.fdiv_eq_ediv _ (by norm_num)]
      exact Int.ediv_le_self 2 hnf
  · exact ⟨hnm, hnf, hf, le_refl nf⟩

lemma mortality_def_num (c : Bool) (m f : ℤ) :
    mortality c m f =
      (pyint ((m : ℝ) * (if c then 0.9 else 0.8)),
       if c then pyint ((pyint ((f : ℝ) * 0.9) : ℝ) * 0.95)
       else pyint ((f : ℝ) * 0.9)) := by
  cases c <;>
    norm_num [mortality_def, adult_mortality_rate, female_mortality_rate,
      male_mortality_rate_warm]

lemma mortality_bounds (c : Bool) {m f : ℤ} (hm : 0 ≤ m) (hf : 0 ≤ f) :
    0 ≤ (mortality c m f).1 ∧ 0 ≤ (mortality c m f).2 ∧
    ((mortality c m f).2 : ℝ) ≤ 0.9 * (f : ℝ) ∧
    pyint ((m : ℝ) * 0.8) ≤ (mortality c m f).1 := by
  rw [mortality_def_num]
  have hmR : (0 : ℝ) ≤ (m : ℝ) := by exact_mod_cast hm
  have hfR : (0 : ℝ) ≤ (f : ℝ) := by exact_mod_cast hf
  have hf1R : (0 : ℝ) ≤ (f : ℝ) * 0.9 := by nlinarith
  have hf1 : 0 ≤ pyint ((f : ℝ) * 0.9) := pyint_nonneg hf1R
  have hf1le : (pyint ((f : ℝ) * 0.9) : ℝ) ≤ (f : ℝ) * 0.9 := pyint_le hf1R
  have hf1cR : (0 : ℝ) ≤ (pyint ((f : ℝ) * 0.9) : ℝ) := by exact_mod_cast hf1
  cases c with
  | false =>
    simp only [Bool.false_eq_true, if_false]
    exact ⟨pyint_nonneg (by nlinarith), hf1, by nlinarith, le_refl _⟩
  | true =>
    simp only [if_true]
    have harg2 : (0 : ℝ) ≤ (pyint ((f : ℝ) * 0.9) : ℝ) * 0.95 := by nlinarith
    have h5 := pyint_le harg2
    refine ⟨pyint_nonneg (by nlinarith), pyint_nonneg harg2, by nlinarith, ?_⟩
    exact pyint_le_of_le (by nlinarith) (by nlinarith)

lemma capacity_bounds {m f : ℤ} (hm : 0 ≤ m) (hf : 0 ≤ f) :
    0 ≤ (capacity_constraint m f).1 ∧ 0 ≤ (capacity_constraint m f).2 ∧
    (capacity_constraint m f).1 + (capacity_constraint m f).2 ≤ carrying_capacity := by
  rw [capacity_def]
  by_cases h : carrying_capacity < m + f
  · rw [if_pos h]
    have htot0 : (0 : ℤ) < m + f := by
      unfold carrying_capacity at h
      omega
    have htotR : (0 : ℝ) < ((m + f : ℤ) : ℝ) := by exact_mod_cast htot0
    have hmR : (0 : ℝ) ≤ (m : ℝ) := by exact_mod_cast hm
    have hfR : (0 : ℝ) ≤ (f : ℝ) := by exact_mod_cast hf
    have hccR : (0 : ℝ) ≤ (carrying_capacity : ℝ) := by
      unfold carrying_capacity
      norm_num
    have hk : (0 : ℝ) ≤ (carrying_capacity : ℝ) / ((m + f : ℤ) : ℝ) :=
      div_nonneg hccR htotR.le
    have h1 : (pyint ((m : ℝ) * ((carrying_capacity : ℝ) / ((m + f : ℤ) : ℝ))) : ℝ) ≤
        (m : ℝ) * ((carrying_capacity : ℝ) / ((m + f : ℤ) : ℝ)) :=
      pyint_le (mul_nonneg hmR hk)
    have h2 : (pyint ((f : ℝ) * ((carrying_capacity : ℝ) / ((m + f : ℤ) : ℝ))) : ℝ) ≤
        (f : ℝ) * ((carrying_capacity : ℝ) / ((m + f : ℤ) : ℝ)) :=
      pyint_le (mul_nonneg hfR hk)
    have hne2 : ((m : ℝ) + (f : ℝ)) ≠ 0 := by
      have h8 : (0 : ℝ) < (m : ℝ) + (f : ℝ) := by
        push_cast at htotR
        linarith
      exact ne_of_gt h8
    have hsum : (m : ℝ) * ((carrying_capacity : ℝ) / ((m + f : ℤ) : ℝ)) +
        (f : ℝ) * ((carrying_capacity : ℝ) / ((m + f : ℤ) : ℝ)) = (carrying_capacity : ℝ) := by
      push_cast
      field_simp [hne2]
      ring
    refine ⟨pyint_nonneg (mul_nonneg hmR hk), pyint_nonneg (mul_nonneg hfR hk), ?_⟩
    have h6 : ((pyint ((m : ℝ) * ((carrying_capacity : ℝ) / ((m + f : ℤ) : ℝ))) +
        pyint ((f : ℝ) * ((carrying_capacity : ℝ) / ((m + f : ℤ) : ℝ))) : ℤ) : ℝ) ≤
        (carrying_capacity : ℝ) := by
      rw [Int.cast_add]
      linarith
    exact_mod_cast h6
  · rw [if_neg h]
    exact ⟨hm, hf, le_of_not_lt h⟩

lemma capacity_pos_left {m f : ℤ} (hm : 1 ≤ m) (hf : 0 ≤ f) (hkey : f ≤ 1999 * m) :
    1 ≤ (capacity_constraint m f).1 := by
  rw [capacity_def]
  by_cases h : carrying_capacity < m + f
  · rw [if_pos h]
    have htot0 : (0 : ℤ) < m + f := by
      unfold carrying_capacity at h
      omega
    have htotR : (0 : ℝ) < ((m + f : ℤ) : ℝ) := by exact_mod_cast htot0
    apply one_le_pyint
    have heq : (m : ℝ) * ((carrying_capacity : ℝ) / ((m + f : ℤ) : ℝ)) =
        ((m * carrying_capacity : ℤ) : ℝ) / ((m + f : ℤ) : ℝ) := by
      push_cast
      ring
    rw [heq, one_le_div htotR]
    have hcc : m + f ≤ m * carrying_capacity := by
      unfold carrying_capacity
      linarith
    exact_mod_cast hcc
  · rw [if_neg h]
    exact hm

/-! ### Structural facts about the loop -/

lemma sim_step_wf (c : Bool) (t : ℝ) {s : SimAcc} (h : s.WF) : (sim_step c t s).WF := by
  obtain ⟨h1, h2, h3, h4, h5⟩ := h
  refine ⟨?_, ?_, ?_, ?_, ?_⟩
  · rw [sim_step_female_counts, sim_step_male_counts]
    simp [h1]
  · rw [sim_step_total_population, sim_step_male_counts]
    simp [h2]
  · rw [sim_step_male_counts]
    simp
  · rw [sim_step_male_counts]
    exact List.getLast?_concat _
  · rw [sim_step_female_counts]
    exact List.getLast?_concat _

lemma sim_loop_wf (c : Bool) (ts : List ℝ) {s : SimAcc} (h : s.WF) :
    (sim_loop c ts s).WF := by
  induction ts generalizing s with
  | nil =>
    rw [sim_loop_nil]
    exact h
  | cons t ts ih =>
    rw [sim_loop_cons]
    by_cases hd : s.males < 1 ∨ s.females < 1
    · rw [if_pos hd]
      exact h
    · rw [if_neg hd]
      exact ih (sim_step_wf c t h)

lemma sim_loop_extends (c : Bool) (ts : List ℝ) (s : SimAcc) :
    s.male_counts <+: (sim_loop c ts s).male_counts ∧
    s.female_counts <+: (sim_loop c ts s).female_counts ∧
    s.total_population <+: (sim_loop c ts s).total_population ∧
    (sim_loop c ts s).male_counts.length ≤ s.male_counts.length + ts.length := by
  induction ts generalizing s with
  | nil =>
    rw [sim_loop_nil]
    simp
  | cons t ts ih =>
    rw [sim_loop_cons]
    by_cases hd : s.males < 1 ∨ s.females < 1
    · rw [if_pos hd]
      simp
    · rw [if_neg hd]
      obtain ⟨p1, p2, p3, p4⟩ := ih (sim_step c t s)
      have q1 : s.male_counts <+: (sim_step c t s).male_counts := by
        rw [sim_step_male_counts]
        exact List.prefix_append _ _
      have q2 : s.female_counts <+: (sim_step c t s).female_counts := by
        rw [sim_step_female_counts]
        exact List.prefix_append _ _
      have q3 : s.total_population <+: (sim_step c t s).total_population := by
        rw [sim_step_total_population]
        exact List.prefix_append _ _
      refine ⟨q1.trans p1, q2.trans p2, q3.trans p3, ?_⟩
      rw [sim_step_male_counts] at p4
      simp only [List.length_append, List.length_cons, List.length_nil] at p4 ⊢
      omega

/-! ### The per-step population invariant -/

/-- The tail of one loop iteration, from the collapse guard to the
capacity constraint, as a function of the already-computed offspring
counts.  Definitionally equal to the corresponding part of `sim_step`. -/
noncomputable def step_core (c : Bool) (males females o1 o2 : ℤ) : ℤ × ℤ :=
  let g := collapse_guard males o1 o2 females
  let q := mortality c males g.2.2
  let m2 := q.1 + g.1
  let f3 := if m2 = 0 then 0 else q.2 + g.2.1
  capacity_constraint m2 f3

lemma sim_step_core (c : Bool) (t : ℝ) (s : SimAcc) :
    ((sim_step c t s).males, (sim_step c t s).females) =
      step_core c s.males s.females
        (offspring (mature_lookup s.female_counts s.females) s.males (get_female_ratio t)).1
        (offspring (mature_lookup s.female_counts s.females) s.males (get_female_ratio t)).2 :=
  rfl

lemma step_core_good (c : Bool) (males females o1 o2 : ℤ)
    (hm1 : 1 ≤ males) (hf1 : 1 ≤ females)
    (hsum : males + females ≤ carrying_capacity)
    (ho1 : 0 ≤ o1) (ho2 : 0 ≤ o2) (ho3 : o2 ≤ 80 * males) :
    0 ≤ (step_core c males females o1 o2).1 ∧
    0 ≤ (step_core c males females o1 o2).2 ∧
    (step_core c males females o1 o2).1 + (step_core c males females o1 o2).2 ≤
      carrying_capacity ∧
    ((step_core c males females o1 o2).1 = 0 → (step_core c males females o1 o2).2 = 0) := by
  obtain ⟨hg1, hg2, hg3, hg4⟩ :=
    @collapse_guard_bounds males o1 o2 females ho1 ho2 (by omega : (0 : ℤ) ≤ females)
  have hsplit : (males ≤ 5 ∧
      ((collapse_guard males o1 o2 females).2.2 : ℝ) ≤ 0.85 * (females : ℝ) ∧
      (collapse_guard males o1 o2 females).2.1 ≤ 400) ∨
      (5 < males ∧ (collapse_guard males o1 o2 females).2.2 = females ∧
      (collapse_guard males o1 o2 females).2.1 ≤ 80 * males) := by
    by_cases h5 : males ≤ 5
    · left
      refine ⟨h5, ?_, ?_⟩
      · rw [collapse_guard_def, if_pos h5]
        dsimp only
        have hfR : (0 : ℝ) ≤ (females : ℝ) := by
          exact_mod_cast (by omega : (0 : ℤ) ≤ females)
        have h9 := @pyint_le ((females : ℝ) * 0.85) (by nlinarith)
        nlinarith
      · omega
    · right
      refine ⟨by omega, ?_, ?_⟩
      · rw [collapse_guard_def, if_neg h5]
      · rw [collapse_guard_def, if_neg h5]
        dsimp only
        exact ho3
  have hcore : step_core c males females o1 o2 =
      capacity_constraint
        ((mortality c males (collapse_guard males o1 o2 females).2.2).1 +
          (collapse_guard males o1 o2 females).1)
        (if (mortality c males (collapse_guard males o1 o2 females).2.2).1 +
            (collapse_guard males o1 o2 females).1 = 0 then 0
         else (mortality c males (collapse_guard males o1 o2 females).2.2).2 +
          (collapse_guard males o1 o2 females).2.1) := rfl
  rw [hcore]
  generalize hG : collapse_guard males o1 o2 females = G at *
  obtain ⟨gm, gf, gfem⟩ := G
  dsimp only at *
  obtain ⟨hq1, hq2, hq3, hq4⟩ := mortality_bounds c (by omega : (0 : ℤ) ≤ males) hg3
  generalize hQ : mortality c males gfem = Q at *
  obtain ⟨qm, qf⟩ := Q
  dsimp only at *
  by_cases hz : qm + gm = 0
  · rw [if_pos hz, hz]
    have hcc : capacity_constraint 0 0 = (0, 0) := by
      rw [capacity_def]
      norm_num [carrying_capacity]
    rw [hcc]
    refine ⟨le_refl _, le_refl _, by norm_num [carrying_capacity], fun _ => rfl⟩
  · rw [if_neg hz]
    have hm2 : 1 ≤ qm + gm := by omega
    have hf2 : 0 ≤ qf + gf := by omega
    obtain ⟨hc1, hc2, hc3⟩ := capacity_bounds (by omega : (0 : ℤ) ≤ qm + gm) hf2
    refine ⟨hc1, hc2, hc3, ?_⟩
    intro h0
    exfalso
    have hfle : females ≤ 1999 := by
      unfold carrying_capacity at hsum
      omega
    have hfRle : (females : ℝ) ≤ 1999 := by exact_mod_cast hfle
    have hkey : qf + gf ≤ 1999 * (qm + gm) := by
      rcases hsplit with ⟨h5, hs2, hs3⟩ | ⟨h5, hs2, hs3⟩
      · have hqb : qf ≤ 1529 := by
          have h12 : (qf : ℝ) < 1530 := by nlinarith
          have h13 : qf < 1530 := by exact_mod_cast h12
          omega
        omega
      · have hqb : qf ≤ 1799 := by
          rw [hs2] at hq3
          have h12 : (qf : ℝ) < 1800 := by nlinarith
          have h13 : qf < 1800 := by exact_mod_cast h12
          omega
        have hq4b : 4 * males - 4 ≤ 5 * qm := by
          have hmR : (0 : ℝ) ≤ (males : ℝ) := by
            exact_mod_cast (by omega : (0 : ℤ) ≤ males)
          have hfl : ((males : ℝ) * 0.8) - 1 < (pyint ((males : ℝ) * 0.8) : ℝ) := by
            rw [pyint_of_nonneg (by nlinarith)]
            exact Int.sub_one_lt_floor _
          have h11 : ((4 * males - 5 : ℤ) : ℝ) <
              ((5 * pyint ((males : ℝ) * 0.8) : ℤ) : ℝ) := by
            push_cast
            nlinarith
          have h11b : (4 * males - 5 : ℤ) < 5 * pyint ((males : ℝ) * 0.8) := by
            exact_mod_cast h11
          omega
        linarith
    have hpos := capacity_pos_left hm2 hf2 hkey
    omega

lemma sim_step_good (c : Bool) (t : ℝ) (s : SimAcc)
    (hm1 : 1 ≤ s.males) (hf1 : 1 ≤ s.females)
    (hsum : s.males + s.females ≤ carrying_capacity)
    (hfc : ∀ i, 0 ≤ s.female_counts.getD i 0) :
    0 ≤ (sim_step c t s).males ∧ 0 ≤ (sim_step c t s).females ∧
    (sim_step c t s).males + (sim_step c t s).females ≤ carrying_capacity ∧
    ((sim_step c t s).males = 0 → (sim_step c t s).females = 0) := by
  have hr0 := get_female_ratio_pos t
  have hr1 := get_female_ratio_lt_one t
  have hmf0 : 0 ≤ mature_lookup s.female_counts s.females :=
    mature_lookup_nonneg hfc (by omega)
  obtain ⟨ho1, ho2, ho3⟩ := @offspring_bounds (mature_lookup s.female_counts s.females)
    s.males (get_female_ratio t) hmf0 (by omega) hr0.le hr1.le
  rw [show (sim_step c t s).males = (step_core c s.males s.females
      (offspring (mature_lookup s.female_counts s.females) s.males (get_female_ratio t)).1
      (offspring (mature_lookup s.female_counts s.females) s.males (get_female_ratio t)).2).1
      from congrArg Prod.fst (sim_step_core c t s),
    show (sim_step c t s).females = (step_core c s.males s.females
      (offspring (mature_lookup s.female_counts s.females) s.males (get_female_ratio t)).1
      (offspring (mature_lookup s.female_counts s.females) s.males (get_female_ratio t)).2).2
      from congrArg Prod.snd (sim_step_core c t s)]
  exact step_core_good c s.males s.females _ _ hm1 hf1 hsum ho1 ho2 ho3

lemma GoodLists_append {mc fc tc : List ℤ} (hw1 : fc.length = mc.length)
    (hw2 : tc.length = mc.length)
    (hg : GoodLists mc fc tc) {a b : ℤ} (ha0 : 0 ≤ a) (hb0 : 0 ≤ b)
    (hab : a + b ≤ carrying_capacity) (hz : a = 0 → b = 0) :
    GoodLists (mc ++ [a]) (fc ++ [b]) (tc ++ [a + b]) := by
  obtain ⟨h1, h2, h3, h4, h5⟩ := hg
  have hb : (fc ++ [b]).getD mc.length 0 = b := by
    rw [← hw1]
    exact getD_concat_length fc b 0
  have htc : (tc ++ [a + b]).getD mc.length 0 = a + b := by
    rw [← hw2]
    exact getD_concat_length tc (a + b) 0
  refine ⟨?_, ?_, ?_, ?_, ?_⟩ <;> intro i
  · rcases lt_trichotomy i mc.length with h | h | h
    · rw [getD_concat_lt _ _ h]
      exact h1 i
    · subst h
      rw [getD_concat_length]
      exact ha0
    · rw [getD_of_length_le _ _ (by simp; omega)]
  · rcases lt_trichotomy i mc.length with h | h | h
    · rw [getD_concat_lt _ _ (by omega)]
      exact h2 i
    · subst h
      rw [hb]
      exact hb0
    · rw [getD_of_length_le _ _ (by simp; omega)]
  · rcases lt_trichotomy i mc.length with h | h | h
    · rw [getD_concat_lt _ _ h, getD_concat_lt _ _ (by omega)]
      exact h3 i
    · subst h
      rw [getD_concat_length, hb]
      exact hab
    · rw [getD_of_length_le _ _ (by simp; omega), getD_of_length_le _ _ (by simp; omega)]
      norm_num [carrying_capacity]
  · rcases lt_trichotomy i mc.length with h | h | h
    · rw [getD_concat_lt _ _ h, getD_concat_lt _ _ (by omega)]
      exact h4 i
    · subst h
      rw [getD_concat_length, hb]
      exact hz
    · rw [getD_of_length_le _ _ (by simp; omega), getD_of_length_le _ _ (by simp; omega)]
      intro h0
      rfl
  · rcases lt_trichotomy i mc.length with h | h | h
    · rw [getD_concat_lt _ _ h, getD_concat_lt _ _ (by omega), getD_concat_lt _ _ (by omega)]
      exact h5 i
    · subst h
      rw [getD_concat_length, hb, htc]
    · rw [getD_of_length_le _ _ (by simp; omega), getD_of_length_le _ _ (by simp; omega),
        getD_of_length_le _ _ (by simp; omega)]
      norm_num

lemma AliveButLast_append {mc fc : List ℤ} (hw1 : fc.length = mc.length)
    (ha : AliveButLast mc fc) {a b mlast flast : ℤ}
    (hml : mc.getD (mc.length - 1) 0 = mlast) (hfl : fc.getD (fc.length - 1) 0 = flast)
    (hm1 : 1 ≤ mlast) (hf1 : 1 ≤ flast) (hne : mc ≠ []) :
    AliveButLast (mc ++ [a]) (fc ++ [b]) := by
  intro i hi
  simp only [List.length_append, List.length_cons, List.length_nil] at hi
  have hlen : 0 < mc.length := List.length_pos_of_ne_nil hne
  by_cases hlt : i + 1 < mc.length
  · obtain ⟨a1, a2⟩ := ha i hlt
    rw [getD_concat_lt _ _ (by omega), getD_concat_lt _ _ (by omega)]
    exact ⟨a1, a2⟩
  · have hieq : i = mc.length - 1 := by omega
    rw [getD_concat_lt _ _ (by omega), getD_concat_lt _ _ (by omega)]
    subst hieq
    refine ⟨by rw [hml]; exact hm1, ?_⟩
    have he : fc.getD (mc.length - 1) 0 = flast := by
      rw [show mc.length - 1 = fc.length - 1 by omega]
      exact hfl
    rw [he]
    exact hf1

lemma sim_loop_good (c : Bool) (ts : List ℝ) (s : SimAcc)
    (hwf : s.WF)
    (hg : GoodLists s.male_counts s.female_counts s.total_population)
    (ha : AliveButLast s.male_counts s.female_counts) :
    GoodLists (sim_loop c ts s).male_counts (sim_loop c ts s).female_counts
      (sim_loop c ts s).total_population ∧
    AliveButLast (sim_loop c ts s).male_counts (sim_loop c ts s).female_counts := by
  induction ts generalizing s with
  | nil =>
    rw [sim_loop_nil]
    exact ⟨hg, ha⟩
  | cons t ts ih =>
    rw [sim_loop_cons]
    by_cases hd : s.males < 1 ∨ s.females < 1
    · rw [if_pos hd]
      exact ⟨hg, ha⟩
    · rw [if_neg hd]
      push_neg at hd
      have hm1 : 1 ≤ s.males := by omega
      have hf1 : 1 ≤ s.females := by omega
      obtain ⟨hw1, hw2, hw3, hw4, hw5⟩ := hwf
      have hlen : 0 < s.male_counts.length := List.length_pos_of_ne_nil hw3
      have hml := wf_last_male ⟨hw1, hw2, hw3, hw4, hw5⟩
      have hfl := wf_last_female ⟨hw1, hw2, hw3, hw4, hw5⟩
      have hsum : s.males + s.females ≤ carrying_capacity := by
        have h1 := hg.2.2.1 (s.male_counts.length - 1)
        rw [hml] at h1
        rw [show s.male_counts.length - 1 = s.female_counts.length - 1 by omega,
          hfl] at h1
        exact h1
      obtain ⟨hs1, hs2, hs3, hs4⟩ := sim_step_good c t s hm1 hf1 hsum hg.2.1
      apply ih
      · exact sim_step_wf c t ⟨hw1, hw2, hw3, hw4, hw5⟩
      · rw [sim_step_male_counts, sim_step_female_counts, sim_step_total_population]
        exact GoodLists_append hw1 hw2 hg hs1 hs2 hs3 hs4
      · rw [sim_step_male_counts, sim_step_female_counts]
        exact AliveButLast_append hw1 ha hml hfl hm1 hf1 hw3

/-! ### Trace reconstruction -/

lemma stateAt_of_prefix_eq {s : SimAcc} (hwf : s.WF) {mc fc tc : List ℤ}
    (hm : s.male_counts <+: mc) (hf : s.female_counts <+: fc)
    (ht : s.total_population <+: tc) :
    stateAt mc fc tc s.male_counts.length = s := by
  obtain ⟨ms, fs, mcs, fcs, tcs⟩ := s
  obtain ⟨hw1, hw2, hw3, hw4, hw5⟩ := hwf
  dsimp only at hw1 hw2 hw3 hw4 hw5 hm hf ht ⊢
  have hlen : 0 < mcs.length := List.length_pos_of_ne_nil hw3
  unfold stateAt
  simp only [SimAcc.mk.injEq]
  refine ⟨?_, ?_, ?_, ?_, ?_⟩
  · rw [prefix_getD 0 hm (by omega)]
    exact getD_last 0 hw4
  · rw [show mcs.length - 1 = fcs.length - 1 by omega]
    rw [prefix_getD 0 hf (by omega)]
    exact getD_last 0 hw5
  · exact take_prefix_length hm
  · rw [show mcs.length = fcs.length from hw1.symm]
    exact take_prefix_length hf
  · rw [show mcs.length = tcs.length from hw2.symm]
    exact take_prefix_length ht

lemma sim_loop_trace (c : Bool) (ts : List ℝ) (s : SimAcc) (hwf : s.WF) :
    ∀ n, s.male_counts.length ≤ n →
      n + 1 ≤ (sim_loop c ts s).male_counts.length →
      stateAt (sim_loop c ts s).male_counts (sim_loop c ts s).female_counts
          (sim_loop c ts s).total_population (n + 1) =
        sim_step c (ts.getD (n - s.male_counts.length) 0)
          (stateAt (sim_loop c ts s).male_counts (sim_loop c ts s).female_counts
            (sim_loop c ts s).total_population n) := by
  induction ts generalizing s with
  | nil =>
    intro n h1 h2
    rw [sim_loop_nil] at h2
    omega
  | cons t ts ih =>
    intro n h1 h2
    rw [sim_loop_cons] at h2 ⊢
    by_cases hd : s.males < 1 ∨ s.females < 1
    · rw [if_pos hd] at h2 ⊢
      omega
    · rw [if_neg hd] at h2 ⊢
      have hwf2 : (sim_step c t s).WF := sim_step_wf c t hwf
      obtain ⟨pm, pf, pt, plen⟩ := sim_loop_extends c ts (sim_step c t s)
      have q1 : s.male_counts <+: (sim_step c t s).male_counts := by
        rw [sim_step_male_counts]
        exact List.prefix_append _ _
      have q2 : s.female_counts <+: (sim_step c t s).female_counts := by
        rw [sim_step_female_counts]
        exact List.prefix_append _ _
      have q3 : s.total_population <+: (sim_step c t s).total_population := by
        rw [sim_step_total_population]
        exact List.prefix_append _ _
      have hlen2 : (sim_step c t s).male_counts.length = s.male_counts.length + 1 := by
        rw [sim_step_male_counts]
        simp
      rcases eq_or_lt_of_le h1 with heq | hlt
      · subst heq
        simp only [Nat.sub_self, List.getD_cons_zero]
        have hs1 := stateAt_of_prefix_eq hwf (q1.trans pm) (q2.trans pf) (q3.trans pt)
        rw [hs1]
        have hs2 := stateAt_of_prefix_eq hwf2 pm pf pt
        rw [hlen2] at hs2
        exact hs2
      · have h1b : (sim_step c t s).male_counts.length ≤ n := by omega
        have hrec := ih (sim_step c t s) hwf2 n h1b h2
        have hidx : n - s.male_counts.length =
            (n - (sim_step c t s).male_counts.length) + 1 := by omega
        rw [hidx, List.getD_cons_succ]
        exact hrec

/-! ### Concrete evaluations of single steps -/

lemma init_acc_eq : init_acc = ⟨250, 250, [250], [250], [500]⟩ := rfl

lemma mortality_true_eval {m f m1 f1 f2 : ℤ}
    (h1 : pyint ((m : ℝ) * 0.9) = m1) (h2 : pyint ((f : ℝ) * 0.9) = f1)
    (h3 : pyint ((f1 : ℝ) * 0.95) = f2) :
    mortality true m f = (m1, f2) := by
  rw [mortality_def_num]
  simp only [if_true]
  rw [h1, h2, h3]

lemma mortality_false_eval {m f m1 f1 : ℤ}
    (h1 : pyint ((m : ℝ) * 0.8) = m1) (h2 : pyint ((f : ℝ) * 0.9) = f1) :
    mortality false m f = (m1, f1) := by
  rw [mortality_def_num]
  simp only [Bool.false_eq_true, if_false]
  rw [h1, h2]

lemma offspring_29_250 : offspring 250 250 (get_female_ratio 29) = (10000, 10000) := by
  rw [offspring_def, get_female_ratio_pivot]
  have hS : pyint (((min (250 : ℤ) 250 * average_eggs_per_female : ℤ) : ℝ) *
      hatchling_survival_rate) = 20000 := by
    apply pyint_eval (by norm_num) <;>
      norm_num [average_eggs_per_female, hatchling_survival_rate]
  rw [hS]
  have e1 : pyint (((20000 : ℤ) : ℝ) * (1 - 1 / 2)) = 10000 :=
    pyint_eval (by norm_num) (by norm_num) (by norm_num)
  have e2 : pyint (((20000 : ℤ) : ℝ) * (1 / 2)) = 10000 :=
    pyint_eval (by norm_num) (by norm_num) (by norm_num)
  rw [e1, e2]

lemma offspring_cold (mfv m : ℤ) (h1 : 1 ≤ min mfv m) (h2 : min mfv m ≤ 250) :
    offspring mfv m (get_female_ratio (-100)) = (80 * min mfv m - 1, 0) := by
  rw [offspring_def]
  have hr0 := get_female_ratio_pos (-100)
  have hrs := r100_small
  have hS : pyint (((min mfv m * average_eggs_per_female : ℤ) : ℝ) *
      hatchling_survival_rate) = 80 * min mfv m := by
    have heq : ((min mfv m * average_eggs_per_female : ℤ) : ℝ) * hatchling_survival_rate
        = ((80 * min mfv m : ℤ) : ℝ) := by
      unfold average_eggs_per_female hatchling_survival_rate
      push_cast
      ring
    rw [heq, pyint_intCast]
  rw [hS]
  rw [pyint_near (by omega) (by omega) hr0 hrs,
    pyint_small (by omega) (by omega) hr0 hrs]

lemma warm_step1 :
    sim_step false 29 ⟨250, 250, [250], [250], [500]⟩ =
      ⟨998, 1001, [250, 998], [250, 1001], [500, 1999]⟩ := by
  have hmat : mature_lookup ([250] : List ℤ) 250 = 250 := by decide
  have ho : offspring (mature_lookup ([250] : List ℤ) 250) 250 (get_female_ratio 29)
      = (10000, 10000) := by
    rw [hmat]
    exact offspring_29_250
  have hg : collapse_guard (250 : ℤ) 10000 10000 250 = (10000, 10000, 250) := by
    rw [collapse_guard_def, if_neg (by norm_num)]
  have hmo : mortality false (250 : ℤ) 250 = (200, 225) :=
    mortality_false_eval
      (pyint_eval (by norm_num) (by norm_num) (by norm_num))
      (pyint_eval (by norm_num) (by norm_num) (by norm_num))
  rw [sim_step_eval false 29 (⟨250, 250, [250], [250], [500]⟩ : SimAcc) ho hg hmo]
  rw [show ((200 : ℤ) + 10000) = 10200 by norm_num,
    show ((225 : ℤ) + 10000) = 10225 by norm_num,
    if_neg (by norm_num : ¬(10200 : ℤ) = 0)]
  have hcap : capacity_constraint (10200 : ℤ) 10225 = (998, 1001) := by
    rw [capacity_def, if_pos (by norm_num [carrying_capacity])]
    have e1 : pyint (((10200 : ℤ) : ℝ) *
        ((carrying_capacity : ℝ) / (((10200 : ℤ) + 10225 : ℤ) : ℝ))) = 998 := by
      apply pyint_eval (by norm_num) <;> norm_num [carrying_capacity]
    have e2 : pyint (((10225 : ℤ) : ℝ) *
        ((carrying_capacity : ℝ) / (((10200 : ℤ) + 10225 : ℤ) : ℝ))) = 1001 := by
      apply pyint_eval (by norm_num) <;> norm_num [carrying_capacity]
    rw [e1, e2]
  rw [hcap]
  norm_num

lemma cold_step1 :
    sim_step true (-100) ⟨250, 250, [250], [250], [500]⟩ =
      ⟨1979, 20, [250, 1979], [250, 20], [500, 1999]⟩ := by
  have ho : offspring (mature_lookup ([250] : List ℤ) 250) 250 (get_female_ratio (-100))
      = (19999, 0) := by
    rw [show mature_lookup ([250] : List ℤ) 250 = 250 by decide]
    have h := offspring_cold 250 250 (by norm_num) (by norm_num)
    norm_num at h
    exact h
  have hg : collapse_guard (250 : ℤ) 19999 0 250 = (19999, 0, 250) := by
    rw [collapse_guard_def, if_neg (by norm_num)]
  have e1 : pyint (((250 : ℤ) : ℝ) * 0.9) = 225 :=
    pyint_eval (by norm_num) (by norm_num) (by norm_num)
  have e3 : pyint (((225 : ℤ) : ℝ) * 0.95) = 213 :=
    pyint_eval (by norm_num) (by norm_num) (by norm_num)
  have hmo := mortality_true_eval e1 e1 e3
  rw [sim_step_eval true (-100) (⟨250, 250, [250], [250], [500]⟩ : SimAcc) ho hg hmo]
  rw [show ((225 : ℤ) + 19999) = 20224 by norm_num,
    show ((213 : ℤ) + 0) = 213 by norm_num,
    if_neg (by norm_num : ¬(20224 : ℤ) = 0)]
  have hcap : capacity_constraint (20224 : ℤ) 213 = (1979, 20) := by
    rw [capacity_def, if_pos (by norm_num [carrying_capacity])]
    have c1 : pyint (((20224 : ℤ) : ℝ) *
        ((carrying_capacity : ℝ) / (((20224 : ℤ) + 213 : ℤ) : ℝ))) = 1979 := by
      apply pyint_eval (by norm_num) <;> norm_num [carrying_capacity]
    have c2 : pyint (((213 : ℤ) : ℝ) *
        ((carrying_capacity : ℝ) / (((20224 : ℤ) + 213 : ℤ) : ℝ))) = 20 := by
      apply pyint_eval (by norm_num) <;> norm_num [carrying_capacity]
    rw [c1, c2]
  rw [hcap]
  norm_num

lemma cold_step2 :
    sim_step true (-100) ⟨1979, 20, [250, 1979], [250, 20], [500, 1999]⟩ =
      ⟨1989, 10, [250, 1979, 1989], [250, 20, 10], [500, 1999, 1999]⟩ := by
  have ho : offspring (mature_lookup ([250, 20] : List ℤ) 20) 1979 (get_female_ratio (-100))
      = (1599, 0) := by
    rw [show mature_lookup ([250, 20] : List ℤ) 20 = 20 by decide]
    have h := offspring_cold 20 1979 (by norm_num) (by norm_num)
    norm_num at h
    exact h
  have hg : collapse_guard (1979 : ℤ) 1599 0 20 = (1599, 0, 20) := by
    rw [collapse_guard_def, if_neg (by norm_num)]
  have e1 : pyint (((1979 : ℤ) : ℝ) * 0.9) = 1781 :=
    pyint_eval (by norm_num) (by norm_num) (by norm_num)
  have e2 : pyint (((20 : ℤ) : ℝ) * 0.9) = 18 :=
    pyint_eval (by norm_num) (by norm_num) (by norm_num)
  have e3 : pyint (((18 : ℤ) : ℝ) * 0.95) = 17 :=
    pyint_eval (by norm_num) (by norm_num) (by norm_num)
  have hmo := mortality_true_eval e1 e2 e3
  rw [sim_step_eval true (-100)
    (⟨1979, 20, [250, 1979], [250, 20], [500, 1999]⟩ : SimAcc) ho hg hmo]
  rw [show ((1781 : ℤ) + 1599) = 3380 by norm_num,
    show ((17 : ℤ) + 0) = 17 by norm_num,
    if_neg (by norm_num : ¬(3380 : ℤ) = 0)]
  have hcap : capacity_constraint (3380 : ℤ) 17 = (1989, 10) := by
    rw [capacity_def, if_pos (by norm_num [carrying_capacity])]
    have c1 : pyint (((3380 : ℤ) : ℝ) *
        ((carrying_capacity : ℝ) / (((3380 : ℤ) + 17 : ℤ) : ℝ))) = 1989 := by
      apply pyint_eval (by norm_num) <;> norm_num [carrying_capacity]
    have c2 : pyint (((17 : ℤ) : ℝ) *
        ((carrying_capacity : ℝ) / (((3380 : ℤ) + 17 : ℤ) : ℝ))) = 10 := by
      apply pyint_eval (by norm_num) <;> norm_num [carrying_capacity]
    rw [c1, c2]
  rw [hcap]
  norm_num

lemma cold_step3 :
    sim_step true (-100) ⟨1989, 10, [250, 1979, 1989], [250, 20, 10], [500, 1999, 1999]⟩ =
      ⟨1993, 6, [250, 1979, 1989, 1993], [250, 20, 10, 6], [500, 1999, 1999, 1999]⟩ := by
  have ho : offspring (mature_lookup ([250, 20, 10] : List ℤ) 10) 1989
      (get_female_ratio (-100)) = (799, 0) := by
    rw [show mature_lookup ([250, 20, 10] : List ℤ) 10 = 10 by decide]
    have h := offspring_cold 10 1989 (by norm_num) (by norm_num)
    norm_num at h
    exact h
  have hg : collapse_guard (1989 : ℤ) 799 0 10 = (799, 0, 10) := by
    rw [collapse_guard_def, if_neg (by norm_num)]
  have e1 : pyint (((1989 : ℤ) : ℝ) * 0.9) = 1790 :=
    pyint_eval (by norm_num) (by norm_num) (by norm_num)
  have e2 : pyint (((10 : ℤ) : ℝ) * 0.9) = 9 :=
    pyint_eval (by norm_num) (by norm_num) (by norm_num)
  have e3 : pyint (((9 : ℤ) : ℝ) * 0.95) = 8 :=
    pyint_eval (by norm_num) (by norm_num) (by norm_num)
  have hmo := mortality_true_eval e1 e2 e3
  rw [sim_step_eval true (-100)
    (⟨1989, 10, [250, 1979, 1989], [250, 20, 10], [500, 1999, 1999]⟩ : SimAcc) ho hg hmo]
  rw [show ((1790 : ℤ) + 799) = 2589 by norm_num,
    show ((8 : ℤ) + 0) = 8 by norm_num,
    if_neg (by norm_num : ¬(2589 : ℤ) = 0)]
  have hcap : capacity_constraint (2589 : ℤ) 8 = (1993, 6) := by
    rw [capacity_def, if_pos (by norm_num [carrying_capacity])]
    have c1 : pyint (((2589 : ℤ) : ℝ) *
        ((carrying_capacity : ℝ) / (((2589 : ℤ) + 8 : ℤ) : ℝ))) = 1993 := by
      apply pyint_eval (by norm_num) <;> norm_num [carrying_capacity]
    have c2 : pyint (((8 : ℤ) : ℝ) *
        ((carrying_capacity : ℝ) / (((2589 : ℤ) + 8 : ℤ) : ℝ))) = 6 := by
      apply pyint_eval (by norm_num) <;> norm_num [carrying_capacity]
    rw [c1, c2]
  rw [hcap]
  norm_num

lemma cold_step4 :
    sim_step true (-100)
      ⟨1993, 6, [250, 1979, 1989, 1993], [250, 20, 10, 6], [500, 1999, 1999, 1999]⟩ =
      ⟨1999, 0, [250, 1979, 1989, 1993, 1999], [250, 20, 10, 6, 0],
        [500, 1999, 1999, 1999, 1999]⟩ := by
  have ho : offspring (mature_lookup ([250, 20, 10, 6] : List ℤ) 6) 1993
      (get_female_ratio (-100)) = (19999, 0) := by
    rw [show mature_lookup ([250, 20, 10, 6] : List ℤ) 6 = 250 by decide]
    have h := offspring_cold 250 1993 (by norm_num) (by norm_num)
    norm_num at h
    exact h
  have hg : collapse_guard (1993 : ℤ) 19999 0 6 = (19999, 0, 6) := by
    rw [collapse_guard_def, if_neg (by norm_num)]
  have e1 : pyint (((1993 : ℤ) : ℝ) * 0.9) = 1793 :=
    pyint_eval (by norm_num) (by norm_num) (by norm_num)
  have e2 : pyint (((6 : ℤ) : ℝ) * 0.9) = 5 :=
    pyint_eval (by norm_num) (by norm_num) (by norm_num)
  have e3 : pyint (((5 : ℤ) : ℝ) * 0.95) = 4 :=
    pyint_eval (by norm_num) (by norm_num) (by norm_num)
  have hmo := mortality_true_eval e1 e2 e3
  rw [sim_step_eval true (-100)
    (⟨1993, 6, [250, 1979, 1989, 1993], [250, 20, 10, 6],
      [500, 1999, 1999, 1999]⟩ : SimAcc) ho hg hmo]
  rw [show ((1793 : ℤ) + 19999) = 21792 by norm_num,
    show ((4 : ℤ) + 0) = 4 by norm_num,
    if_neg (by norm_num : ¬(21792 : ℤ) = 0)]
  have hcap : capacity_constraint (21792 : ℤ) 4 = (1999, 0) := by
    rw [capacity_def, if_pos (by norm_num [carrying_capacity])]
    have c1 : pyint (((21792 : ℤ) : ℝ) *
        ((carrying_capacity : ℝ) / (((21792 : ℤ) + 4 : ℤ) : ℝ))) = 1999 := by
      apply pyint_eval (by norm_num) <;> norm_num [carrying_capacity]
    have c2 : pyint (((4 : ℤ) : ℝ) *
        ((carrying_capacity : ℝ) / (((21792 : ℤ) + 4 : ℤ) : ℝ))) = 0 := by
      apply pyint_eval (by norm_num) <;> norm_num [carrying_capacity]
    rw [c1, c2]
  rw [hcap]
  norm_num

lemma cold_run :
    sim_loop true (List.replicate 6 (-100 : ℝ)) init_acc =
      ⟨1999, 0, [250, 1979, 1989, 1993, 1999], [250, 20, 10, 6, 0],
        [500, 1999, 1999, 1999, 1999]⟩ := by
  rw [show (List.replicate 6 (-100 : ℝ)) =
    -100 :: -100 :: -100 :: -100 :: -100 :: -100 :: [] from rfl]
  rw [init_acc_eq]
  rw [sim_loop_cons, if_neg (by norm_num), cold_step1]
  rw [sim_loop_cons, if_neg (by norm_num), cold_step2]
  rw [sim_loop_cons, if_neg (by norm_num), cold_step3]
  rw [sim_loop_cons, if_neg (by norm_num), cold_step4]
  rw [sim_loop_cons, if_pos (by norm_num)]

/-! ### Invariants of the initial state -/

lemma getD_take {l : List ℤ} {n m : ℕ} (h : m < n) (d : ℤ) :
    (l.take n).getD m d = l.getD m d := by
  simp [List.getD_eq_getElem?_getD, List.getElem?_take, h]

lemma init_good :
    GoodLists init_acc.male_counts init_acc.female_counts init_acc.total_population := by
  rw [init_acc_eq]
  refine ⟨?_, ?_, ?_, ?_, ?_⟩ <;> intro i <;> rcases i with _ | j <;>
    simp [List.getD_cons_succ, carrying_capacity]

lemma init_alive : AliveButLast init_acc.male_counts init_acc.female_counts := by
  rw [init_acc_eq]
  intro i hi
  simp only [List.length_cons, List.length_nil] at hi
  omega

lemma warm_run1 :
    sim_loop false [(29 : ℝ)] init_acc =
      ⟨998, 1001, [250, 998], [250, 1001], [500, 1999]⟩ := by
  rw [init_acc_eq, sim_loop_cons, if_neg (by norm_num), warm_step1, sim_loop_nil]

/-! ### The claims -/

/-- C4: in every run, every recorded male and female count is
nonnegative, every recorded male/female pair sums to at most the
carrying capacity, and every recorded total is at most the carrying
capacity (reading entries with `getD`, which is `0` past the end). -/
theorem claim_C4_invariants (temps : List ℝ) (cooling : Bool) (i : ℕ) :
    0 ≤ (simulate_population temps cooling).2.1.getD i 0 ∧
    0 ≤ (simulate_population temps cooling).2.2.1.getD i 0 ∧
    (simulate_population temps cooling).2.1.getD i 0 +
      (simulate_population temps cooling).2.2.1.getD i 0 ≤ carrying_capacity ∧
    (simulate_population temps cooling).2.2.2.getD i 0 ≤ carrying_capacity := by
  obtain ⟨h1, h2, h3, h4, h5⟩ :=
    (sim_loop_good cooling temps init_acc init_acc_wf init_good init_alive).1
  have e1 : (simulate_population temps cooling).2.1 =
      (sim_loop cooling temps init_acc).male_counts := rfl
  have e2 : (simulate_population temps cooling).2.2.1 =
      (sim_loop cooling temps init_acc).female_counts := rfl
  have e3 : (simulate_population temps cooling).2.2.2 =
      (sim_loop cooling temps init_acc).total_population := rfl
  rw [e1, e2, e3]
  refine ⟨h1 i, h2 i, h3 i, ?_⟩
  rw [h5 i]
  exact h3 i

/-- C9: in every run, any recorded generation with a male count of zero
also has a female count of zero: the extinction rule zeroes females
whenever males hit zero before the state is recorded, and the capacity
scaling can never zero the males on its own. -/
theorem claim_C9_male_extinction_zeroing (temps : List ℝ) (cooling : Bool) (i : ℕ)
    (h : (simulate_population temps cooling).2.1.getD i 0 = 0) :
    (simulate_population temps cooling).2.2.1.getD i 0 = 0 := by
  obtain ⟨h1, h2, h3, h4, h5⟩ :=
    (sim_loop_good cooling temps init_acc init_acc_wf init_good init_alive).1
  exact h4 i h

/-- Witness for C9 at the empty schedule and an index past the end. -/
theorem claim_C9_witness :
    (simulate_population [] false).2.1.getD 1 0 = 0 ∧
    (simulate_population [] false).2.2.1.getD 1 0 = 0 := by
  have h0 : (simulate_population [] false).2.1.getD 1 0 = 0 := by
    show ((sim_loop false [] init_acc).male_counts).getD 1 0 = 0
    rw [sim_loop_nil, init_acc_eq]
    decide
  exact ⟨h0, claim_C9_male_extinction_zeroing [] false 1 h0⟩

/-- C5: the sex-ratio function is the logistic curve: it equals 1/2 at
the pivotal temperature, is strictly increasing, and always lies
strictly between 0 and 1. -/
theorem claim_C5_sex_ratio :
    get_female_ratio pivotal_temperature = 1 / 2 ∧
    StrictMono get_female_ratio ∧
    ∀ t : ℝ, get_female_ratio t ∈ Set.Ioo (0 : ℝ) 1 := by
  refine ⟨?_, get_female_ratio_strictMono,
    fun t => ⟨get_female_ratio_pos t, get_female_ratio_lt_one t⟩⟩
  rw [show pivotal_temperature = (29 : ℝ) by norm_num [pivotal_temperature]]
  exact get_female_ratio_pivot

/-- Witness for C5: strict monotonicity applied at 29 < 30, and the
pivotal value. -/
theorem claim_C5_witness :
    get_female_ratio 29 < get_female_ratio 30 ∧
    get_female_ratio pivotal_temperature = 1 / 2 :=
  ⟨claim_C5_sex_ratio.2.1 (by norm_num : (29 : ℝ) < 30), claim_C5_sex_ratio.1⟩

/-- C2 counterexample: with the one-temperature schedule `[29]` the
schedule is exhausted without extinction, and the returned temperature
sequence (length 1) is shorter than the returned count sequences
(length 2), so the four sequences do not all have the same length. -/
theorem claim_C2_counterexample :
    (simulate_population [(29 : ℝ)] false).1.length ≠
      (simulate_population [(29 : ℝ)] false).2.1.length := by
  show ([(29 : ℝ)].take (sim_loop false [(29 : ℝ)] init_acc).male_counts.length).length ≠
    (sim_loop false [(29 : ℝ)] init_acc).male_counts.length
  rw [warm_run1]
  norm_num

/-- C2 (amended): the three count sequences always have the same
length; the returned temperature sequence is the prefix of the input of
length `min (input length) (count length)`; the count sequences have at
most one more entry than the input; and every recorded generation
except possibly the last has at least one individual of each sex.  The
four lengths agree exactly when the run stops early on extinction; on
schedule exhaustion the temperature sequence is one shorter. -/
theorem claim_C2_amended_output_contract (temps : List ℝ) (cooling : Bool) :
    (simulate_population temps cooling).2.1.length =
      (simulate_population temps cooling).2.2.1.length ∧
    (simulate_population temps cooling).2.2.2.length =
      (simulate_population temps cooling).2.1.length ∧
    (simulate_population temps cooling).1 =
      temps.take (simulate_population temps cooling).2.1.length ∧
    (simulate_population temps cooling).2.1.length ≤ temps.length + 1 ∧
    (∀ i, i + 1 < (simulate_population temps cooling).2.1.length →
      1 ≤ (simulate_population temps cooling).2.1.getD i 0 ∧
      1 ≤ (simulate_population temps cooling).2.2.1.getD i 0) := by
  obtain ⟨hw1, hw2, hw3, hw4, hw5⟩ := sim_loop_wf cooling temps init_acc_wf
  obtain ⟨pm, pf, pt, hlen⟩ := sim_loop_extends cooling temps init_acc
  have halive := (sim_loop_good cooling temps init_acc init_acc_wf init_good init_alive).2
  have hinit : init_acc.male_counts.length = 1 := rfl
  have hconv : (simulate_population temps cooling).2.1 =
      (sim_loop cooling temps init_acc).male_counts := rfl
  refine ⟨hw1.symm, hw2, rfl, ?_, halive⟩
  rw [hconv]
  omega

/-- Witness for C2 at the schedule `[29]`, instantiating the
all-but-last-alive clause at index 0. -/
theorem claim_C2_witness :
    (simulate_population [(29 : ℝ)] false).2.1.length =
      (simulate_population [(29 : ℝ)] false).2.2.1.length ∧
    0 + 1 < (simulate_population [(29 : ℝ)] false).2.1.length ∧
    1 ≤ (simulate_population [(29 : ℝ)] false).2.1.getD 0 0 := by
  have hlen : (simulate_population [(29 : ℝ)] false).2.1.length = 2 := by
    show ((sim_loop false [(29 : ℝ)] init_acc).male_counts).length = 2
    rw [warm_run1]
    rfl
  have h := claim_C2_amended_output_contract [(29 : ℝ)] false
  exact ⟨h.1, by omega, (h.2.2.2.2 0 (by omega)).1⟩

/-- C1: on the warming schedule (first temperature exactly 29, where the
sex ratio is exactly 1/2), the first recorded generation after the
initial state is 998 males and 1001 females. -/
theorem claim_C1_warming_first_step :
    get_female_ratio 29 = 1 / 2 ∧
    (simulate_population warming_temps false).2.1.getD 1 0 = 998 ∧
    (simulate_population warming_temps false).2.2.1.getD 1 0 = 1001 := by
  have hcount : (⌈((35 : ℝ) - 29) / 0.1⌉).toNat = 60 := by
    have h : ((35 : ℝ) - 29) / 0.1 = ((60 : ℤ) : ℝ) := by norm_num
    rw [h, Int.ceil_intCast]
    rfl
  have hw : warming_temps =
      (29 : ℝ) :: (List.range' 1 59).map (fun i : ℕ => (29 : ℝ) + (i : ℝ) * 0.1) := by
    unfold warming_temps arange
    rw [hcount, List.range_eq_range']
    rw [show List.range' 0 60 = 0 :: List.range' 1 59 from rfl]
    simp only [List.map_cons]
    norm_num
  have hstep : sim_loop false warming_temps init_acc =
      sim_loop false ((List.range' 1 59).map (fun i : ℕ => (29 : ℝ) + (i : ℝ) * 0.1))
        (⟨998, 1001, [250, 998], [250, 1001], [500, 1999]⟩ : SimAcc) := by
    rw [hw, init_acc_eq, sim_loop_cons, if_neg (by norm_num), warm_step1]
  obtain ⟨pm, pf, pt, plen⟩ := sim_loop_extends false
    ((List.range' 1 59).map (fun i : ℕ => (29 : ℝ) + (i : ℝ) * 0.1))
    (⟨998, 1001, [250, 998], [250, 1001], [500, 1999]⟩ : SimAcc)
  refine ⟨get_female_ratio_pivot, ?_, ?_⟩
  · show ((sim_loop false warming_temps init_acc).male_counts).getD 1 0 = 998
    rw [hstep, prefix_getD 0 pm (by norm_num)]
    decide
  · show ((sim_loop false warming_temps init_acc).female_counts).getD 1 0 = 1001
    rw [hstep, prefix_getD 0 pf (by norm_num)]
    decide

/-- C3 counterexample: at a pre-newborn female count of 11 in the
cooling scenario, the code's two successive truncations give 8, while a
single truncation of the combined survival product gives 9. -/
theorem claim_C3_counterexample :
    (mortality true 10 11).2 ≠
      pyint (((11 : ℤ) : ℝ) * (1 - adult_mortality_rate) * (1 - female_mortality_rate)) ∧
    (mortality true 10 11).2 = 8 ∧
    pyint (((11 : ℤ) : ℝ) * (1 - adult_mortality_rate) * (1 - female_mortality_rate)) = 9 := by
  have e1 : pyint (((10 : ℤ) : ℝ) * 0.9) = 9 :=
    pyint_eval (by norm_num) (by norm_num) (by norm_num)
  have e2 : pyint (((11 : ℤ) : ℝ) * 0.9) = 9 :=
    pyint_eval (by norm_num) (by norm_num) (by norm_num)
  have e3 : pyint (((9 : ℤ) : ℝ) * 0.95) = 8 :=
    pyint_eval (by norm_num) (by norm_num) (by norm_num)
  have hm : mortality true 10 11 = (9, 8) := mortality_true_eval e1 e2 e3
  have hs : pyint (((11 : ℤ) : ℝ) * (1 - adult_mortality_rate) *
      (1 - female_mortality_rate)) = 9 := by
    rw [show ((11 : ℤ) : ℝ) * (1 - adult_mortality_rate) * (1 - female_mortality_rate) =
      ((11 : ℤ) : ℝ) * 0.855 from by
        norm_num [adult_mortality_rate, female_mortality_rate]]
    exact pyint_eval (by norm_num) (by norm_num) (by norm_num)
  refine ⟨?_, ?_, hs⟩
  · rw [hm, hs]
    norm_num
  · rw [hm]

/-- C3 (amended): cooling female mortality applies two successive
truncations, `int(int(f * 0.9) * 0.95)`, not a single one; the result is
at most (and in general below) the single-truncation value; newborns
are added only afterwards (see `sim_step`). -/
theorem claim_C3_amended_mortality (m f : ℤ) (hm : 0 ≤ m) (hf : 0 ≤ f) :
    (mortality true m f).1 = pyint ((m : ℝ) * (1 - adult_mortality_rate)) ∧
    (mortality true m f).2 =
      pyint ((pyint ((f : ℝ) * (1 - adult_mortality_rate)) : ℝ) *
        (1 - female_mortality_rate)) ∧
    (mortality true m f).2 ≤
      pyint ((f : ℝ) * (1 - adult_mortality_rate) * (1 - female_mortality_rate)) := by
  have hfR : (0 : ℝ) ≤ (f : ℝ) := by exact_mod_cast hf
  have c1 : (mortality true m f).1 = pyint ((m : ℝ) * (1 - adult_mortality_rate)) := by
    rw [mortality_def]
    norm_num
  have c2 : (mortality true m f).2 =
      pyint ((pyint ((f : ℝ) * (1 - adult_mortality_rate)) : ℝ) *
        (1 - female_mortality_rate)) := by
    rw [mortality_def]
    norm_num
  refine ⟨c1, c2, ?_⟩
  rw [c2]
  have a1 : (0 : ℝ) ≤ (f : ℝ) * (1 - adult_mortality_rate) := by
    unfold adult_mortality_rate
    nlinarith
  have a2 := pyint_le a1
  have a3 : (0 : ℝ) ≤ (pyint ((f : ℝ) * (1 - adult_mortality_rate)) : ℝ) := by
    exact_mod_cast pyint_nonneg a1
  apply pyint_le_of_le
  · unfold female_mortality_rate
    nlinarith
  · unfold female_mortality_rate
    nlinarith

/-- Witness for C3 (amended) at males 10, females 11. -/
theorem claim_C3_witness :
    (mortality true 10 11).1 = pyint (((10 : ℤ) : ℝ) * (1 - adult_mortality_rate)) ∧
    (mortality true 10 11).2 =
      pyint ((pyint (((11 : ℤ) : ℝ) * (1 - adult_mortality_rate)) : ℝ) *
        (1 - female_mortality_rate)) ∧
    (mortality true 10 11).2 ≤
      pyint (((11 : ℤ) : ℝ) * (1 - adult_mortality_rate) * (1 - female_mortality_rate)) :=
  claim_C3_amended_mortality 10 11 (by norm_num) (by norm_num)

/-- C7 counterexample: the guard engages at males = 3, yet an unguarded
male offspring count of 0 is left at 0, not strictly reduced. -/
theorem claim_C7_counterexample :
    (3 : ℤ) ≤ 5 ∧ (collapse_guard 3 0 7 10).1 = 0 ∧
    ¬((collapse_guard 3 0 7 10).1 < 0) := by
  have hg : collapse_guard (3 : ℤ) 0 7 10 = (0, 3, 8) := by
    rw [collapse_guard_def, if_pos (by norm_num)]
    refine Prod.ext (by decide) (Prod.ext (by decide) ?_)
    show pyint (((10 : ℤ) : ℝ) * 0.85) = 8
    exact pyint_eval (by norm_num) (by norm_num) (by norm_num)
  refine ⟨by norm_num, ?_, ?_⟩ <;> rw [hg] <;> norm_num

/-- C7 (amended): the collapse guard engages exactly when males ≤ 5; it
halves both offspring counts with floor division clamped at 0 — a
strict reduction whenever the unguarded count is at least 1, but a zero
count stays 0 — and shrinks the current female count by 15% with floor;
for males > 5 it is the identity. -/
theorem claim_C7_amended_guard (m nm nf f : ℤ) :
    (m ≤ 5 → collapse_guard m nm nf f =
      (max 0 (Int.fdiv nm 2), max 0 (Int.fdiv nf 2), pyint ((f : ℝ) * 0.85)) ∧
      (1 ≤ nm → max 0 (Int.fdiv nm 2) < nm) ∧
      (1 ≤ nf → max 0 (Int.fdiv nf 2) < nf)) ∧
    (5 < m → collapse_guard m nm nf f = (nm, nf, f)) := by
  constructor
  · intro h5
    refine ⟨by rw [collapse_guard_def, if_pos h5], ?_, ?_⟩
    · intro h1
      rw [Int.fdiv_eq_ediv _ (by norm_num)]
      exact max_lt (by omega) (by omega)
    · intro h1
      rw [Int.fdiv_eq_ediv _ (by norm_num)]
      exact max_lt (by omega) (by omega)
  · intro h5
    rw [collapse_guard_def, if_neg (by omega)]

/-- Witness for C7 (amended) at males 3, offspring (7, 9), females 10. -/
theorem claim_C7_witness :
    (3 : ℤ) ≤ 5 ∧ (1 : ℤ) ≤ 7 ∧
    collapse_guard 3 7 9 10 =
      (max 0 (Int.fdiv 7 2), max 0 (Int.fdiv 9 2), pyint (((10 : ℤ) : ℝ) * 0.85)) ∧
    max 0 (Int.fdiv (7 : ℤ) 2) < 7 := by
  have h := (claim_C7_amended_guard 3 7 9 10).1 (by norm_num)
  exact ⟨by norm_num, by norm_num, h.1, h.2.1 (by norm_num)⟩

lemma arange_mismatch_empty : arange 29 24 0.1 = ([] : List ℝ) := by
  unfold arange
  have h : ((24 : ℝ) - 29) / 0.1 = ((-50 : ℤ) : ℝ) := by norm_num
  rw [h, Int.ceil_intCast]
  rfl

/-- C8 counterexample: constructing a schedule whose step sign
contradicts its direction does not raise any error — `np.arange`
simply returns the empty sequence. -/
theorem claim_C8_counterexample : arange 29 24 0.1 = ([] : List ℝ) :=
  arange_mismatch_empty

/-- C8 (amended): the code performs no validation at all.  Parameters
are plain module constants used as-is, and a schedule whose step sign
contradicts its direction yields the empty temperature sequence, on
which the simulation returns normally with only the initial state
recorded; construction and simulation are total, and no error is ever
raised. -/
theorem claim_C8_amended_no_validation :
    simulate_population (arange 29 24 0.1) true =
      ([], [250], [250], [500]) := by
  rw [arange_mismatch_empty]
  rfl

/-- C10: extinction forcing is asymmetric.  On six cold temperatures in
the cooling scenario the run records the generation (males, females) =
(1999, 0): a state with females = 0 and males > 0 is appended, and the
run stops only at the start of the next iteration (five states and five
consumed temperatures out of six offered). -/
theorem claim_C10_asymmetric_extinction :
    simulate_population (List.replicate 6 (-100 : ℝ)) true =
      (List.replicate 5 (-100 : ℝ), [250, 1979, 1989, 1993, 1999],
        [250, 20, 10, 6, 0], [500, 1999, 1999, 1999, 1999]) := by
  show ((List.replicate 6 (-100 : ℝ)).take
      (sim_loop true (List.replicate 6 (-100 : ℝ)) init_acc).male_counts.length,
    (sim_loop true (List.replicate 6 (-100 : ℝ)) init_acc).male_counts,
    (sim_loop true (List.replicate 6 (-100 : ℝ)) init_acc).female_counts,
    (sim_loop true (List.replicate 6 (-100 : ℝ)) init_acc).total_population) = _
  rw [cold_run]
  norm_num [List.take_replicate]

/-- C6: in every run, the step that records entry `n` transforms the
state reconstructed from the first `n` recorded entries, and the
mature-female value it looks up is the recorded female count from
`maturity_age` generations before the entry being computed when the
history holds at least `maturity_age` entries, and the current female
count (the last recorded one) otherwise. -/
theorem claim_C6_lag_lookup (temps : List ℝ) (cooling : Bool) (n : ℕ)
    (h1 : 1 ≤ n) (h2 : n + 1 ≤ (simulate_population temps cooling).2.1.length) :
    stateAt (simulate_population temps cooling).2.1
        (simulate_population temps cooling).2.2.1
        (simulate_population temps cooling).2.2.2 (n + 1) =
      sim_step cooling (temps.getD (n - 1) 0)
        (stateAt (simulate_population temps cooling).2.1
          (simulate_population temps cooling).2.2.1
          (simulate_population temps cooling).2.2.2 n) ∧
    mature_lookup
        (stateAt (simulate_population temps cooling).2.1
          (simulate_population temps cooling).2.2.1
          (simulate_population temps cooling).2.2.2 n).female_counts
        (stateAt (simulate_population temps cooling).2.1
          (simulate_population temps cooling).2.2.1
          (simulate_population temps cooling).2.2.2 n).females =
      (if maturity_age ≤ n then
        (simulate_population temps cooling).2.2.1.getD (n - maturity_age) 0
       else (simulate_population temps cooling).2.2.1.getD (n - 1) 0) := by
  have e1 : (simulate_population temps cooling).2.1 =
      (sim_loop cooling temps init_acc).male_counts := rfl
  have e2 : (simulate_population temps cooling).2.2.1 =
      (sim_loop cooling temps init_acc).female_counts := rfl
  have e3 : (simulate_population temps cooling).2.2.2 =
      (sim_loop cooling temps init_acc).total_population := rfl
  rw [e1] at h2 ⊢
  rw [e2, e3]
  obtain ⟨hw1, hw2, hw3, hw4, hw5⟩ := sim_loop_wf cooling temps init_acc_wf
  constructor
  · have tr := sim_loop_trace cooling temps init_acc init_acc_wf n
      (by show 1 ≤ n; omega) h2
    have hidx : n - init_acc.male_counts.length = n - 1 := rfl
    rw [hidx] at tr
    exact tr
  · have p1 : (stateAt (sim_loop cooling temps init_acc).male_counts
        (sim_loop cooling temps init_acc).female_counts
        (sim_loop cooling temps init_acc).total_population n).female_counts =
        (sim_loop cooling temps init_acc).female_counts.take n := rfl
    have p2 : (stateAt (sim_loop cooling temps init_acc).male_counts
        (sim_loop cooling temps init_acc).female_counts
        (sim_loop cooling temps init_acc).total_population n).females =
        (sim_loop cooling temps init_acc).female_counts.getD (n - 1) 0 := rfl
    rw [p1, p2]
    unfold mature_lookup
    have hlen : ((sim_loop cooling temps init_acc).female_counts.take n).length = n := by
      rw [List.length_take]
      omega
    simp only [hlen]
    have hma : 0 < maturity_age := by norm_num [maturity_age]
    by_cases h4 : maturity_age ≤ n
    · rw [if_pos h4, if_pos h4]
      exact getD_take (by omega) 0
    · rw [if_neg h4, if_neg h4]

/-- Witness for C6 at the schedule `[29]` and step `n = 1`. -/
theorem claim_C6_witness :
    (1 : ℕ) ≤ 1 ∧
    1 + 1 ≤ (simulate_population [(29 : ℝ)] false).2.1.length ∧
    stateAt (simulate_population [(29 : ℝ)] false).2.1
        (simulate_population [(29 : ℝ)] false).2.2.1
        (simulate_population [(29 : ℝ)] false).2.2.2 (1 + 1) =
      sim_step false ([(29 : ℝ)].getD (1 - 1) 0)
        (stateAt (simulate_population [(29 : ℝ)] false).2.1
          (simulate_population [(29 : ℝ)] false).2.2.1
          (simulate_population [(29 : ℝ)] false).2.2.2 1) ∧
    mature_lookup
        (stateAt (simulate_population [(29 : ℝ)] false).2.1
          (simulate_population [(29 : ℝ)] false).2.2.1
          (simulate_population [(29 : ℝ)] false).2.2.2 1).female_counts
        (stateAt (simulate_population [(29 : ℝ)] false).2.1
          (simulate_population [(29 : ℝ)] false).2.2.1
          (simulate_population [(29 : ℝ)] false).2.2.2 1).females =
      (if maturity_age ≤ 1 then
        (simulate_population [(29 : ℝ)] false).2.2.1.getD (1 - maturity_age) 0
       else (simulate_population [(29 : ℝ)] false).2.2.1.getD (1 - 1) 0) := by
  have hlen : (simulate_population [(29 : ℝ)] false).2.1.length = 2 := by
    show ((sim_loop false [(29 : ℝ)] init_acc).male_counts).length = 2
    rw [warm_run1]
    rfl
  have h := claim_C6_lag_lookup [(29 : ℝ)] false 1 (le_refl 1) (by omega)
  exact ⟨le_refl 1, by omega, h.1, h.2⟩
